import Mathlib

/-!
# Verification of the chat client's message/attachment preparation pipeline

Shallow embedding of `src/main.py`:

* `convert_image_to_base64` — the Image Normalizer: an unbounded `while True`
  loop that re-encodes an image at decreasing JPEG quality and then at
  shrinking dimensions until the base64-inflation estimate
  `raw_bytes * 4 / 3` fits the byte budget, or either shrunk dimension would
  drop below 200 px (in which case it warns and returns `None`).
* `prepare_messages` — the Message Assembler: copies user messages into fresh
  dicts, aliases the other messages, and (when an attachment is present and
  the prepared list is non-empty) mutates the content of the last prepared
  message in place, only if its role is `"user"`.
* `stream_response` — the Completion Client's reply-extraction step.

Python dict aliasing is modeled explicitly: the prepared list holds entries
that are either fresh copies or aliases (indices) into the history, and the
in-place content assignment is a heap update, so non-mutation of the stored
history is a theorem, not an assumption.

PIL (`Image.open/convert/resize/save`) is an external image codec; it is
modeled by an abstract `PILModel` providing the raw encoded bytes of a save
and the dimension bookkeeping facts the source relies on (`resize` sets the
requested dimensions, `convert("RGB")` keeps them, an encoder never produces
zero bytes). Python's float arithmetic `n * 4 / 3 <= max` and
`int(w * 0.9)` is embedded as exact arithmetic `n * 4 ≤ max * 3` and
`w * 9 / 10`, which agree with the float computations on all realistic
sizes.
-/

mutual

/-- Content of a chat message: either a plain string or an ordered list of
typed blocks. -/
inductive Content where
  | str (s : String)
  | blocks (bs : List Block)

/-- A typed content block of the request payload.  A text block's `"text"`
field holds whatever the previous content was (a Python value), so its
payload is again a `Content`. -/
inductive Block where
  | text (t : Content)
  | image (srcType mediaType data : String)

end

/-- One chat message dict: `{"role": ..., "content": ...}`. -/
structure Msg where
  role : String
  content : Content

/-- An in-memory PIL image: its pixel dimensions plus an abstract
identifier for the pixel data (the claims only inspect dimensions). -/
structure Image where
  width : Nat
  height : Nat
  pixels : Nat
deriving DecidableEq

/-- Abstract model of the PIL operations `convert_image_to_base64` uses.
`save i fmt q` is the byte string PIL writes into the `BytesIO` buffer when
saving image `i` with the given format and (optional) JPEG quality.  The
three dimension facts and `save_nonempty` (every real encoder emits at
least a header byte) are the only assumptions the source code relies on. -/
structure PILModel where
  resize : Image → Nat → Nat → Image
  convertRGB : Image → Image
  save : Image → String → Option Nat → List Nat
  resize_width : ∀ i w h, (resize i w h).width = w
  resize_height : ∀ i w h, (resize i w h).height = h
  convertRGB_width : ∀ i, (convertRGB i).width = i.width
  convertRGB_height : ∀ i, (convertRGB i).height = i.height
  save_nonempty : ∀ i f q, save i f q ≠ []

/-- The state at which the compression loop gives up (`return None`):
the quality in force, the image just encoded, and the raw byte count of
that encoding. -/
structure FailInfo where
  quality : Nat
  image : Image
  size : Nat
deriving DecidableEq

/-- The data of the final, successful iteration of the compression loop:
the image that was encoded, the format and quality passed to `save`, and
the raw bytes written. -/
structure OkInfo where
  image : Image
  fmt : String
  quality : Option Nat
  bytes : List Nat
deriving DecidableEq

/-- Python's `str.startswith`, modeled on the character list. -/
def strStartsWith (s p : String) : Bool :=
  p.toList.isPrefixOf s.toList

/-- The base64 alphabet (RFC 4648), as used by `base64.b64encode`. -/
def b64char (n : Nat) : Char :=
  "ABCDEFGHIJKLMNOPQRSTUVWXYZabcdefghijklmnopqrstuvwxyz0123456789+/".toList.getD n 'A'

/-- Standard base64 of a byte list, three input bytes per four output
characters, `=`-padded. -/
def b64chunks : List Nat → List Char
  | [] => []
  | [a] => [b64char (a / 4), b64char (a % 4 * 16), '=', '=']
  | [a, b] => [b64char (a / 4), b64char (a % 4 * 16 + b / 16), b64char (b % 16 * 4), '=']
  | a :: b :: c :: rest =>
      b64char (a / 4) :: b64char (a % 4 * 16 + b / 16) ::
      b64char (b % 16 * 4 + c / 64) :: b64char (c % 64) :: b64chunks rest

/-- Python's `base64.b64encode(bytes).decode('utf-8')`. -/
def b64encode (bs : List Nat) : String :=
  String.mk (b64chunks bs)

/-- The image variable after the save section of one loop iteration:
`image = image.convert("RGB")` is executed only for formats other than
JPEG/JPG/PNG. -/
def convertedImage (M : PILModel) (img_format : String) (image : Image) : Image :=
  if img_format = "JPEG" ∨ img_format = "JPG" then image
  else if img_format = "PNG" then image
  else M.convertRGB image

/-- The format string passed to `image.save`:
`'JPEG'` for the JPEG family, `'PNG' if img_format == "PNG" else 'JPEG'`
otherwise. -/
def saveFormat (img_format : String) : String :=
  if img_format = "PNG" then "PNG" else "JPEG"

/-- The quality passed to `image.save`:
`quality if img_format != "PNG" else None`. -/
def saveQuality (img_format : String) (quality : Nat) : Option Nat :=
  if img_format = "PNG" then none else some quality

theorem convertedImage_width (M : PILModel) (fmt : String) (img : Image) :
    (convertedImage M fmt img).width = img.width := by
  unfold convertedImage
  split
  · rfl
  · split
    · rfl
    · exact M.convertRGB_width img

theorem convertedImage_height (M : PILModel) (fmt : String) (img : Image) :
    (convertedImage M fmt img).height = img.height := by
  unfold convertedImage
  split
  · rfl
  · split
    · rfl
    · exact M.convertRGB_height img

/-- The `while True:` loop of `convert_image_to_base64` (lines 70–95 of
`src/main.py`), with the source's local constants inlined:
`resize_factor = 0.9`, `min_quality = 20`, `min_dimension = 200`.
The budget test `img_bytes.tell() * 4 / 3 <= max_size_bytes` is the exact
form `len * 4 ≤ max * 3`; `int(w * 0.9)` is `w * 9 / 10`.
Returns the data of the final successful `save` (`Except.ok`), or the
state at which the loop gives up (`Except.error`). -/
def convertLoop (M : PILModel) (img_format : String) (max_size_bytes : Nat)
    (quality : Nat) (image : Image) : Except FailInfo OkInfo :=
  if (M.save (convertedImage M img_format image) (saveFormat img_format)
        (saveQuality img_format quality)).length * 4 ≤ max_size_bytes * 3 then
    .ok ⟨convertedImage M img_format image, saveFormat img_format,
         saveQuality img_format quality,
         M.save (convertedImage M img_format image) (saveFormat img_format)
           (saveQuality img_format quality)⟩
  else if hq : (img_format = "JPEG" ∨ img_format = "JPG") ∧ 20 < quality then
    convertLoop M img_format max_size_bytes (quality - 10)
      (convertedImage M img_format image)
  else if (convertedImage M img_format image).width * 9 / 10 < 200 ∨
          (convertedImage M img_format image).height * 9 / 10 < 200 then
    .error ⟨quality, convertedImage M img_format image,
            (M.save (convertedImage M img_format image) (saveFormat img_format)
              (saveQuality img_format quality)).length⟩
  else
    convertLoop M img_format max_size_bytes quality
      (M.resize (convertedImage M img_format image)
        ((convertedImage M img_format image).width * 9 / 10)
        ((convertedImage M img_format image).height * 9 / 10))
termination_by (image.width, quality)
decreasing_by
  · rw [convertedImage_width]
    exact Prod.Lex.right image.width (by omega)
  · rw [M.resize_width, convertedImage_width]
    rename_i hdim
    rw [convertedImage_width, convertedImage_height] at hdim
    exact Prod.Lex.left _ _ (by omega)

/-- The same loop body, with an explicit iteration budget (`none` when the
budget is exhausted before the loop exits).  Used to state that the source
loop terminates within a computable number of iterations. -/
def convertLoopFuel (M : PILModel) (img_format : String) (max_size_bytes : Nat) :
    Nat → Nat → Image → Option (Except FailInfo OkInfo)
  | 0, _, _ => none
  | fuel + 1, quality, image =>
    if (M.save (convertedImage M img_format image) (saveFormat img_format)
          (saveQuality img_format quality)).length * 4 ≤ max_size_bytes * 3 then
      some (.ok ⟨convertedImage M img_format image, saveFormat img_format,
            saveQuality img_format quality,
            M.save (convertedImage M img_format image) (saveFormat img_format)
              (saveQuality img_format quality)⟩)
    else if (img_format = "JPEG" ∨ img_format = "JPG") ∧ 20 < quality then
      convertLoopFuel M img_format max_size_bytes fuel (quality - 10)
        (convertedImage M img_format image)
    else if (convertedImage M img_format image).width * 9 / 10 < 200 ∨
            (convertedImage M img_format image).height * 9 / 10 < 200 then
      some (.error ⟨quality, convertedImage M img_format image,
            (M.save (convertedImage M img_format image) (saveFormat img_format)
              (saveQuality img_format quality)).length⟩)
    else
      convertLoopFuel M img_format max_size_bytes fuel quality
        (M.resize (convertedImage M img_format image)
          ((convertedImage M img_format image).width * 9 / 10)
          ((convertedImage M img_format image).height * 9 / 10))

/-- The warning `convert_image_to_base64` shows when it gives up. -/
def cannotCompressWarning : String := "画像を十分に圧縮できませんでした。"

/-- Function `convert_image_to_base64(file, max_size_mb=5)` of `src/main.py`
(lines 57–101), after `Image.open` has yielded the image and its source
format.  The second component is the list of user-visible warnings the call
emits (`st.warning`). -/
def convert_image_to_base64 (M : PILModel) (image : Image) (img_format : String)
    (max_size_mb : Nat) : Option String × List String :=
  match convertLoop M img_format (max_size_mb * 1024 * 1024) 90 image with
  | .ok r => (some (b64encode r.bytes), [])
  | .error _ => (none, [cannotCompressWarning])

/-- An entry of the `prepared_messages` list: either a fresh dict built by
`{"role": msg["role"], "content": content}` (the `role == "user"` branch),
or an alias of `messages[i]` appended by `prepared_messages.append(msg)`
(the other branch). -/
inductive Entry where
  | fresh (m : Msg)
  | alias (i : Nat)

/-- The entry appended for `messages[i]`. -/
def copyOrAlias (i : Nat) (m : Msg) : Entry :=
  if m.role = "user" then .fresh ⟨m.role, m.content⟩ else .alias i

/-- The `for msg in messages:` copy loop of `prepare_messages`, with `i` the
index of the first message of the remaining list. -/
def prepareEntries (i : Nat) : List Msg → List Entry
  | [] => []
  | m :: rest => copyOrAlias i m :: prepareEntries (i + 1) rest

/-- Reading an entry: a fresh dict is its own value, an alias reads the
history cell it points to. -/
def deref (hist : List Msg) : Entry → Msg
  | .fresh m => m
  | .alias i => hist.getD i ⟨"", .str ""⟩

/-- The value of `prepared_messages[-1]` (the branch that uses it is guarded
by the list being non-empty; the default is never read). -/
def lastDeref (hist : List Msg) (entries : List Entry) : Msg :=
  match entries.getLast? with
  | none => ⟨"", .str ""⟩
  | some e => deref hist e

/-- The in-place assignment `last_message["content"] = [...]`: updating a
fresh dict touches only the prepared list, updating an alias writes into the
history cell.  Returns the history and the prepared list after the write. -/
def writeLastContent (hist : List Msg) (entries : List Entry) (c : Content) :
    List Msg × List Entry :=
  match entries.getLast? with
  | none => (hist, entries)
  | some (.fresh m) => (hist, entries.dropLast ++ [.fresh ⟨m.role, c⟩])
  | some (.alias i) =>
      (hist.set i ⟨(hist.getD i ⟨"", .str ""⟩).role, c⟩, entries)

/-- Step `last_message = prepared_messages[-1]; if last_message["role"] == "user":
last_message["content"] = c` — the attachment injection step shared by the
image and spreadsheet branches. -/
def injectLast (hist : List Msg) (entries : List Entry) (c : Content)
    (log : List String) : List Msg × List Entry × List String :=
  if (lastDeref hist entries).role = "user" then
    ((writeLastContent hist entries c).1, (writeLastContent hist entries c).2, log)
  else (hist, entries, log)

/-- The uploaded file, after Streamlit's upload widget: its MIME type
(`uploaded_file.type`), and — depending on which branch reads it — the
`Image.open` result (image and source format) or the
`pd.read_excel(...).to_string(index=False)` result (or the exception message
if parsing fails). -/
structure File where
  type : String
  image : Image
  img_format : String
  excel : Except String String

/-- The error `prepare_messages` shows when spreadsheet parsing fails. -/
def excelErrorMessage (e : String) : String :=
  "Excelファイルの処理中にエラーが発生しました: " ++ e

/-- Function `prepare_messages(messages, uploaded_file=None)` of `src/main.py`
(lines 104–154), with the Python heap made explicit.  Returns the history
after the call, the prepared entries, and the list of user-visible
warnings/errors emitted.  The guard `if uploaded_file and prepared_messages:`
and the truthiness test `if image_data:` (false for `None` and for the empty
string) are modeled as written. -/
def prepare_messagesH (M : PILModel) (messages : List Msg)
    (uploaded_file : Option File) : List Msg × List Entry × List String :=
  let prepared := prepareEntries 0 messages
  match uploaded_file with
  | none => (messages, prepared, [])
  | some f =>
    if prepared.isEmpty then (messages, prepared, [])
    else if strStartsWith f.type "image/" then
      match convert_image_to_base64 M f.image f.img_format 5 with
      | (some data, warns) =>
        if data = "" then (messages, prepared, warns)
        else injectLast messages prepared
          (.blocks [.text (lastDeref messages prepared).content,
                    .image "base64" f.type data]) warns
      | (none, warns) => (messages, prepared, warns)
    else if f.type = "application/vnd.ms-excel" ∨
            f.type = "application/vnd.openxmlformats-officedocument.spreadsheetml.sheet" then
      match f.excel with
      | .ok df_string =>
          injectLast messages prepared
            (.blocks [.text (lastDeref messages prepared).content,
                      .text (.str ("```\n" ++ df_string ++ "\n```"))]) []
      | .error e => (messages, prepared, [excelErrorMessage e])
    else (messages, prepared, [])

/-- The value `prepare_messages` returns (the prepared list, read through the
final heap), together with the warnings/errors emitted. -/
def prepare_messages (M : PILModel) (messages : List Msg)
    (uploaded_file : Option File) : List Msg × List String :=
  ((prepare_messagesH M messages uploaded_file).2.1.map
     (deref (prepare_messagesH M messages uploaded_file).1),
   (prepare_messagesH M messages uploaded_file).2.2)

/-- One content block of a completion-endpoint response. -/
structure RespBlock where
  text : String

/-- A successful completion-endpoint response: `response.content` is the
list of content blocks. -/
structure Resp where
  content : List RespBlock

/-- The reply-extraction step of `stream_response` (lines 40–54 of
`src/main.py`): `if response.content: return response.content[0].text;
return None` (a Python list is truthy iff non-empty). -/
def stream_response (response : Resp) : Option String :=
  match response.content with
  | [] => none
  | b :: _ => some b.text

theorem convertLoopFuel_complete (M : PILModel) (img_format : String)
    (max_size_bytes : Nat) :
    ∀ fuel quality image, (quality - 11) / 10 + image.width + 1 ≤ fuel →
      convertLoopFuel M img_format max_size_bytes fuel quality image =
        some (convertLoop M img_format max_size_bytes quality image) := by
  intro fuel
  induction fuel with
  | zero => intro q img h; omega
  | succ n ih =>
    intro q img h
    rw [convertLoop.eq_def]
    simp only [convertLoopFuel]
    by_cases h1 : (M.save (convertedImage M img_format img) (saveFormat img_format)
        (saveQuality img_format q)).length * 4 ≤ max_size_bytes * 3
    · rw [if_pos h1, if_pos h1]
    · rw [if_neg h1, if_neg h1]
      by_cases h2 : (img_format = "JPEG" ∨ img_format = "JPG") ∧ 20 < q
      · rw [if_pos h2, dif_pos h2]
        apply ih
        have hw := convertedImage_width M img_format img
        obtain ⟨-, hq⟩ := h2
        omega
      · rw [if_neg h2, dif_neg h2]
        by_cases h3 : (convertedImage M img_format img).width * 9 / 10 < 200 ∨
            (convertedImage M img_format img).height * 9 / 10 < 200
        · rw [if_pos h3, if_pos h3]
        · rw [if_neg h3, if_neg h3]
          apply ih
          have hw := convertedImage_width M img_format img
          have hr := M.resize_width (convertedImage M img_format img)
            ((convertedImage M img_format img).width * 9 / 10)
            ((convertedImage M img_format img).height * 9 / 10)
          rw [hr, hw]
          rw [hw] at h3
          omega

theorem convertLoop_from_fuel (M : PILModel) (img_format : String) (max_size_bytes : Nat)
    (quality : Nat) (image : Image) (fuel : Nat) (x : Except FailInfo OkInfo)
    (hf : (quality - 11) / 10 + image.width + 1 ≤ fuel)
    (h : convertLoopFuel M img_format max_size_bytes fuel quality image = some x) :
    convertLoop M img_format max_size_bytes quality image = x := by
  have hc := convertLoopFuel_complete M img_format max_size_bytes fuel quality image hf
  rw [h] at hc
  exact (Option.some.inj hc).symm

theorem convertLoopFuel_ok (M : PILModel) (img_format : String) (max_size_bytes : Nat) :
    ∀ fuel quality image r,
      convertLoopFuel M img_format max_size_bytes fuel quality image = some (.ok r) →
        r.bytes.length * 4 ≤ max_size_bytes * 3 ∧
        r.bytes = M.save r.image r.fmt r.quality := by
  intro fuel
  induction fuel with
  | zero => intro q img r h; simp [convertLoopFuel] at h
  | succ n ih =>
    intro q img r h
    simp only [convertLoopFuel] at h
    by_cases h1 : (M.save (convertedImage M img_format img) (saveFormat img_format)
        (saveQuality img_format q)).length * 4 ≤ max_size_bytes * 3
    · rw [if_pos h1] at h
      have hr := Except.ok.inj (Option.some.inj h)
      rw [← hr]
      exact ⟨h1, rfl⟩
    · rw [if_neg h1] at h
      by_cases h2 : (img_format = "JPEG" ∨ img_format = "JPG") ∧ 20 < q
      · rw [if_pos h2] at h
        exact ih _ _ r h
      · rw [if_neg h2] at h
        by_cases h3 : (convertedImage M img_format img).width * 9 / 10 < 200 ∨
            (convertedImage M img_format img).height * 9 / 10 < 200
        · rw [if_pos h3] at h
          exact absurd (Option.some.inj h) (by simp)
        · rw [if_neg h3] at h
          exact ih _ _ r h

theorem convertLoopFuel_err (M : PILModel) (img_format : String) (max_size_bytes : Nat) :
    ∀ fuel quality image fs,
      convertLoopFuel M img_format max_size_bytes fuel quality image = some (.error fs) →
        fs.size = (M.save fs.image (saveFormat img_format)
          (saveQuality img_format fs.quality)).length ∧
        ¬ fs.size * 4 ≤ max_size_bytes * 3 ∧
        (¬ (img_format = "JPEG" ∨ img_format = "JPG") ∨ fs.quality ≤ 20) ∧
        (fs.image.width * 9 / 10 < 200 ∨ fs.image.height * 9 / 10 < 200) := by
  intro fuel
  induction fuel with
  | zero => intro q img fs h; simp [convertLoopFuel] at h
  | succ n ih =>
    intro q img fs h
    simp only [convertLoopFuel] at h
    by_cases h1 : (M.save (convertedImage M img_format img) (saveFormat img_format)
        (saveQuality img_format q)).length * 4 ≤ max_size_bytes * 3
    · rw [if_pos h1] at h
      exact absurd (Option.some.inj h) (by simp)
    · rw [if_neg h1] at h
      by_cases h2 : (img_format = "JPEG" ∨ img_format = "JPG") ∧ 20 < q
      · rw [if_pos h2] at h
        exact ih _ _ fs h
      · rw [if_neg h2] at h
        by_cases h3 : (convertedImage M img_format img).width * 9 / 10 < 200 ∨
            (convertedImage M img_format img).height * 9 / 10 < 200
        · rw [if_pos h3] at h
          have hfs := Except.error.inj (Option.some.inj h)
          rw [← hfs]
          refine ⟨rfl, h1, ?_, h3⟩
          rw [Classical.not_and_iff_or_not_not] at h2
          rcases h2 with h2 | h2
          · exact Or.inl h2
          · refine Or.inr ?_
            show q ≤ 20
            omega
        · rw [if_neg h3] at h
          exact ih _ _ fs h

theorem convertLoop_ok (M : PILModel) (img_format : String) (max_size_bytes : Nat)
    (quality : Nat) (image : Image) (r : OkInfo)
    (h : convertLoop M img_format max_size_bytes quality image = .ok r) :
    r.bytes.length * 4 ≤ max_size_bytes * 3 ∧
    r.bytes = M.save r.image r.fmt r.quality := by
  apply convertLoopFuel_ok M img_format max_size_bytes
    ((quality - 11) / 10 + image.width + 1) quality image r
  rw [convertLoopFuel_complete M img_format max_size_bytes _ quality image (le_refl _), h]

theorem convertLoop_err (M : PILModel) (img_format : String) (max_size_bytes : Nat)
    (quality : Nat) (image : Image) (fs : FailInfo)
    (h : convertLoop M img_format max_size_bytes quality image = .error fs) :
    fs.size = (M.save fs.image (saveFormat img_format)
      (saveQuality img_format fs.quality)).length ∧
    ¬ fs.size * 4 ≤ max_size_bytes * 3 ∧
    (¬ (img_format = "JPEG" ∨ img_format = "JPG") ∨ fs.quality ≤ 20) ∧
    (fs.image.width * 9 / 10 < 200 ∨ fs.image.height * 9 / 10 < 200) := by
  apply convertLoopFuel_err M img_format max_size_bytes
    ((quality - 11) / 10 + image.width + 1) quality image fs
  rw [convertLoopFuel_complete M img_format max_size_bytes _ quality image (le_refl _), h]

theorem b64encode_ne_empty (bs : List Nat) (h : bs ≠ []) : b64encode bs ≠ "" := by
  intro heq
  have hd := congrArg String.data heq
  match bs with
  | [] => exact h rfl
  | [a] => simp [b64encode, b64chunks] at hd
  | [a, b] => simp [b64encode, b64chunks] at hd
  | a :: b :: c :: rest => simp [b64encode, b64chunks] at hd

theorem convert_some (M : PILModel) (image : Image) (img_format : String)
    (max_size_mb : Nat) (s : String) (warns : List String)
    (h : convert_image_to_base64 M image img_format max_size_mb = (some s, warns)) :
    ∃ r, convertLoop M img_format (max_size_mb * 1024 * 1024) 90 image = .ok r ∧
      s = b64encode r.bytes ∧ warns = [] := by
  unfold convert_image_to_base64 at h
  cases hc : convertLoop M img_format (max_size_mb * 1024 * 1024) 90 image with
  | error fs => rw [hc] at h; simp at h
  | ok r =>
    rw [hc] at h
    simp at h
    exact ⟨r, rfl, h.1.symm, h.2⟩

theorem convert_none (M : PILModel) (image : Image) (img_format : String)
    (max_size_mb : Nat)
    (h : (convert_image_to_base64 M image img_format max_size_mb).1 = none) :
    (∃ fs, convertLoop M img_format (max_size_mb * 1024 * 1024) 90 image = .error fs) ∧
    convert_image_to_base64 M image img_format max_size_mb =
      (none, [cannotCompressWarning]) := by
  unfold convert_image_to_base64 at h ⊢
  cases hc : convertLoop M img_format (max_size_mb * 1024 * 1024) 90 image with
  | error fs => exact ⟨⟨fs, rfl⟩, rfl⟩
  | ok r => rw [hc] at h; simp at h

theorem convert_some_ne_empty (M : PILModel) (image : Image) (img_format : String)
    (max_size_mb : Nat) (s : String) (warns : List String)
    (h : convert_image_to_base64 M image img_format max_size_mb = (some s, warns)) :
    s ≠ "" := by
  obtain ⟨r, hr, hs, -⟩ := convert_some M image img_format max_size_mb s warns h
  obtain ⟨-, hb⟩ := convertLoop_ok M img_format (max_size_mb * 1024 * 1024) 90 image r hr
  rw [hs]
  apply b64encode_ne_empty
  rw [hb]
  exact M.save_nonempty r.image r.fmt r.quality

theorem convert_of_err (M : PILModel) (image : Image) (img_format : String)
    (max_size_mb : Nat) (fs : FailInfo)
    (h : convertLoop M img_format (max_size_mb * 1024 * 1024) 90 image = .error fs) :
    convert_image_to_base64 M image img_format max_size_mb =
      (none, [cannotCompressWarning]) := by
  unfold convert_image_to_base64
  rw [h]

theorem convertLoop_fit (M : PILModel) (img_format : String) (max_size_bytes : Nat)
    (quality : Nat) (image : Image)
    (h : (M.save (convertedImage M img_format image) (saveFormat img_format)
      (saveQuality img_format quality)).length * 4 ≤ max_size_bytes * 3) :
    convertLoop M img_format max_size_bytes quality image =
      .ok ⟨convertedImage M img_format image, saveFormat img_format,
           saveQuality img_format quality,
           M.save (convertedImage M img_format image) (saveFormat img_format)
             (saveQuality img_format quality)⟩ := by
  rw [convertLoop.eq_def, if_pos h]

theorem convertLoop_stuck (M : PILModel) (img_format : String) (max_size_bytes : Nat)
    (quality : Nat) (image : Image)
    (h1 : ¬ (M.save (convertedImage M img_format image) (saveFormat img_format)
      (saveQuality img_format quality)).length * 4 ≤ max_size_bytes * 3)
    (h2 : ¬ ((img_format = "JPEG" ∨ img_format = "JPG") ∧ 20 < quality))
    (h3 : (convertedImage M img_format image).width * 9 / 10 < 200 ∨
          (convertedImage M img_format image).height * 9 / 10 < 200) :
    convertLoop M img_format max_size_bytes quality image =
      .error ⟨quality, convertedImage M img_format image,
        (M.save (convertedImage M img_format image) (saveFormat img_format)
          (saveQuality img_format quality)).length⟩ := by
  rw [convertLoop.eq_def, if_neg h1, dif_neg h2, if_pos h3]

theorem prepareEntries_length (i : Nat) (l : List Msg) :
    (prepareEntries i l).length = l.length := by
  induction l generalizing i with
  | nil => rfl
  | cons m rest ih => simp [prepareEntries, ih]

theorem prepareEntries_map_deref (pre l : List Msg) :
    (prepareEntries pre.length l).map (deref (pre ++ l)) = l := by
  induction l generalizing pre with
  | nil => rfl
  | cons m rest ih =>
    simp only [prepareEntries, List.map_cons, List.cons.injEq]
    constructor
    · unfold copyOrAlias
      by_cases hu : m.role = "user"
      · rw [if_pos hu]
        rfl
      · rw [if_neg hu]
        show (pre ++ m :: rest).getD pre.length ⟨"", .str ""⟩ = m
        simp [List.getD, List.getElem?_append_right]
        simp [List.getElem_append_right]
    · have := ih (pre ++ [m])
      simp only [List.length_append, List.length_cons, List.length_nil] at this
      simpa using this

theorem prepareEntries_map_deref_zero (l : List Msg) :
    (prepareEntries 0 l).map (deref l) = l := by
  simpa using prepareEntries_map_deref [] l

theorem prepareEntries_getLast (l : List Msg) (lm : Msg) (h : l.getLast? = some lm) :
    ∀ i, (prepareEntries i l).getLast? = some (copyOrAlias (i + (l.length - 1)) lm) := by
  induction l with
  | nil => simp at h
  | cons a rest ih =>
    intro i
    match rest, h with
    | [], h =>
      simp at h
      subst h
      rfl
    | b :: t, h =>
      rw [List.getLast?_cons_cons] at h
      show (copyOrAlias i a :: prepareEntries (i + 1) (b :: t)).getLast? = _
      rw [show prepareEntries (i + 1) (b :: t) =
            copyOrAlias (i + 1) b :: prepareEntries (i + 2) t from rfl]
      rw [List.getLast?_cons_cons,
          show copyOrAlias (i + 1) b :: prepareEntries (i + 2) t =
            prepareEntries (i + 1) (b :: t) from rfl]
      rw [ih h (i + 1)]
      congr 2
      simp
      omega

theorem lastDeref_eq (hist : List Msg) (lm : Msg) (h : hist.getLast? = some lm) :
    lastDeref hist (prepareEntries 0 hist) = lm := by
  unfold lastDeref
  rw [prepareEntries_getLast hist lm h 0]
  unfold copyOrAlias
  by_cases hu : lm.role = "user"
  · rw [if_pos hu]
    rfl
  · rw [if_neg hu]
    show hist.getD (0 + (hist.length - 1)) ⟨"", .str ""⟩ = lm
    rw [List.getLast?_eq_getElem?] at h
    simp [List.getD, h]

theorem prepareEntries_getLast_user (hist : List Msg) (lm : Msg)
    (h : hist.getLast? = some lm) (hu : lm.role = "user") :
    (prepareEntries 0 hist).getLast? = some (.fresh lm) := by
  rw [prepareEntries_getLast hist lm h 0]
  unfold copyOrAlias
  rw [if_pos hu]

theorem writeLast_fresh (hist : List Msg) (entries : List Entry) (m : Msg) (c : Content)
    (h : entries.getLast? = some (.fresh m)) :
    writeLastContent hist entries c = (hist, entries.dropLast ++ [.fresh ⟨m.role, c⟩]) := by
  unfold writeLastContent
  rw [h]

theorem injectLast_user (hist : List Msg) (lm : Msg) (c : Content) (log : List String)
    (h : hist.getLast? = some lm) (hu : lm.role = "user") :
    injectLast hist (prepareEntries 0 hist) c log =
      (hist, (prepareEntries 0 hist).dropLast ++ [.fresh ⟨lm.role, c⟩], log) := by
  unfold injectLast
  rw [lastDeref_eq hist lm h, if_pos hu,
      writeLast_fresh hist _ lm c (prepareEntries_getLast_user hist lm h hu)]

theorem injectLast_not_user (hist : List Msg) (c : Content) (log : List String)
    (h : ¬ (lastDeref hist (prepareEntries 0 hist)).role = "user") :
    injectLast hist (prepareEntries 0 hist) c log = (hist, prepareEntries 0 hist, log) := by
  unfold injectLast
  rw [if_neg h]

theorem injectLast_hist (hist : List Msg) (c : Content) (log : List String) :
    (injectLast hist (prepareEntries 0 hist) c log).1 = hist := by
  cases hh : hist.getLast? with
  | none =>
    have hnil : hist = [] := by simpa using hh
    subst hnil
    rfl
  | some lm =>
    by_cases hu : lm.role = "user"
    · rw [injectLast_user hist lm c log hh hu]
    · rw [injectLast_not_user hist c log (by rw [lastDeref_eq hist lm hh]; exact hu)]

theorem map_deref_write (hist : List Msg) (role : String) (c : Content) :
    ((prepareEntries 0 hist).dropLast ++ [Entry.fresh ⟨role, c⟩]).map (deref hist) =
      hist.dropLast ++ [⟨role, c⟩] := by
  rw [List.map_append, List.map_dropLast, prepareEntries_map_deref_zero]
  rfl

theorem prepareEntries_eq_nil (i : Nat) (l : List Msg) (h : prepareEntries i l = []) :
    l = [] := by
  cases l with
  | nil => rfl
  | cons m rest => simp [prepareEntries] at h

theorem prepareEntries_not_isEmpty (hist : List Msg) (hne : hist ≠ []) :
    ¬ ((prepareEntries 0 hist).isEmpty = true) := by
  rw [List.isEmpty_iff]
  intro h
  exact hne (prepareEntries_eq_nil 0 hist h)

theorem injectLast_cases (hist : List Msg) (c : Content) (log : List String) :
    (injectLast hist (prepareEntries 0 hist) c log).2.1 = prepareEntries 0 hist ∨
    ∃ lm, hist.getLast? = some lm ∧ lm.role = "user" ∧
      (injectLast hist (prepareEntries 0 hist) c log).2.1 =
        (prepareEntries 0 hist).dropLast ++ [.fresh ⟨lm.role, c⟩] := by
  cases hh : hist.getLast? with
  | none =>
    left
    have hnil : hist = [] := by simpa using hh
    subst hnil
    rfl
  | some lm =>
    by_cases hu : lm.role = "user"
    · right
      exact ⟨lm, rfl, hu, by rw [injectLast_user hist lm c log hh hu]⟩
    · left
      rw [injectLast_not_user hist c log (by rw [lastDeref_eq hist lm hh]; exact hu)]

theorem prepare_hist (M : PILModel) (hist : List Msg) (file : Option File) :
    (prepare_messagesH M hist file).1 = hist := by
  cases file with
  | none => rfl
  | some f =>
    unfold prepare_messagesH
    simp only []
    split
    · rfl
    · split
      · split
        · split
          · rfl
          · exact injectLast_hist hist _ _
        · rfl
      · split
        · split
          · exact injectLast_hist hist _ _
          · rfl
        · rfl

theorem prepareH_cases (M : PILModel) (hist : List Msg) (file : Option File) :
    (prepare_messagesH M hist file).2.1 = prepareEntries 0 hist ∨
    ∃ lm c, hist.getLast? = some lm ∧ lm.role = "user" ∧
      (prepare_messagesH M hist file).2.1 =
        (prepareEntries 0 hist).dropLast ++ [.fresh ⟨lm.role, c⟩] := by
  cases file with
  | none => exact Or.inl rfl
  | some f =>
    unfold prepare_messagesH
    simp only []
    split
    · exact Or.inl rfl
    · split
      · split
        · split
          · exact Or.inl rfl
          · rcases injectLast_cases hist _ _ with h | ⟨lm, hh, hu, h⟩
            · exact Or.inl h
            · exact Or.inr ⟨lm, _, hh, hu, h⟩
        · exact Or.inl rfl
      · split
        · split
          · rcases injectLast_cases hist _ _ with h | ⟨lm, hh, hu, h⟩
            · exact Or.inl h
            · exact Or.inr ⟨lm, _, hh, hu, h⟩
          · exact Or.inl rfl
        · exact Or.inl rfl

theorem prepH_image_some (M : PILModel) (hist : List Msg) (f : File) (s : String)
    (warns : List String) (hne : hist ≠ [])
    (hmime : strStartsWith f.type "image/" = true)
    (henc : convert_image_to_base64 M f.image f.img_format 5 = (some s, warns))
    (hs : s ≠ "") :
    prepare_messagesH M hist (some f) =
      injectLast hist (prepareEntries 0 hist)
        (.blocks [.text (lastDeref hist (prepareEntries 0 hist)).content,
                  .image "base64" f.type s]) warns := by
  unfold prepare_messagesH
  simp only []
  rw [if_neg (prepareEntries_not_isEmpty hist hne), if_pos hmime, henc]
  show (if s = "" then (hist, prepareEntries 0 hist, warns)
        else injectLast hist (prepareEntries 0 hist)
          (.blocks [.text (lastDeref hist (prepareEntries 0 hist)).content,
                    .image "base64" f.type s]) warns) = _
  rw [if_neg hs]

theorem prepH_image_none (M : PILModel) (hist : List Msg) (f : File)
    (warns : List String) (hne : hist ≠ [])
    (hmime : strStartsWith f.type "image/" = true)
    (henc : convert_image_to_base64 M f.image f.img_format 5 = (none, warns)) :
    prepare_messagesH M hist (some f) = (hist, prepareEntries 0 hist, warns) := by
  unfold prepare_messagesH
  simp only []
  rw [if_neg (prepareEntries_not_isEmpty hist hne), if_pos hmime, henc]

/-- A concrete instance of the PIL model, used to evaluate the pipeline on
explicit inputs: `resize` sets the requested dimensions, `convert("RGB")`
is the identity, and every save writes the one-byte string `[7]`. -/
def pilDemo : PILModel :=
  ⟨fun i w h => ⟨w, h, i.pixels⟩, fun i => i, fun _ _ _ => [7],
   fun _ _ _ => rfl, fun _ _ _ => rfl, fun _ => rfl, fun _ => rfl,
   fun _ _ _ => by simp⟩

/-- C1.  The Image Normalizer terminates on every input: the source's
`while True` loop, run with an iteration budget of `8 + image.width`,
already reaches the loop's own result — at most `(90 - 20) / 10 = 7`
quality-decrement iterations (the `(90 - 11) / 10 = 7` part of the budget),
plus the final iteration, plus at most `image.width` dimension-shrinking
iterations, since each shrink multiplies the width by `0.9` (strictly
decreasing it) and the loop returns `None` as soon as either shrunk
dimension would drop below `200`. -/
theorem normalizer_terminates (M : PILModel) (img_format : String)
    (max_size_bytes : Nat) (image : Image) :
    convertLoopFuel M img_format max_size_bytes (8 + image.width) 90 image =
      some (convertLoop M img_format max_size_bytes 90 image) := by
  apply convertLoopFuel_complete
  omega

/-- C2.  Whenever the Image Normalizer succeeds, the raw byte count of
the final re-encoding satisfies `n * 4 / 3 ≤ maxBytes` (stated exactly as
`n * 4 ≤ maxBytes * 3`), with `maxBytes = max_size_mb * 1024 * 1024`;
`prepare_messages` calls it with the default `max_size_mb = 5`, i.e. a
5 MiB budget. -/
theorem normalizer_success_fits_budget (M : PILModel) (image : Image)
    (img_format : String) (max_size_mb : Nat) (s : String) (warns : List String)
    (h : convert_image_to_base64 M image img_format max_size_mb = (some s, warns)) :
    ∃ r, convertLoop M img_format (max_size_mb * 1024 * 1024) 90 image = .ok r ∧
      s = b64encode r.bytes ∧
      r.bytes.length * 4 ≤ max_size_mb * 1024 * 1024 * 3 := by
  obtain ⟨r, hr, hs, -⟩ := convert_some M image img_format max_size_mb s warns h
  obtain ⟨hfit, -⟩ := convertLoop_ok M img_format (max_size_mb * 1024 * 1024) 90 image r hr
  exact ⟨r, hr, hs, hfit⟩

theorem normalizer_success_fits_budget_witness :
    ∃ r, convertLoop pilDemo "PNG" (5 * 1024 * 1024) 90 ⟨300, 300, 0⟩ = .ok r ∧
      "Bw==" = b64encode r.bytes ∧
      r.bytes.length * 4 ≤ 5 * 1024 * 1024 * 3 := by
  apply normalizer_success_fits_budget pilDemo ⟨300, 300, 0⟩ "PNG" 5 "Bw==" []
  have hloop : convertLoop pilDemo "PNG" (5 * 1024 * 1024) 90 ⟨300, 300, 0⟩ =
      .ok ⟨⟨300, 300, 0⟩, "PNG", none, [7]⟩ :=
    convertLoop_from_fuel pilDemo "PNG" (5 * 1024 * 1024) 90 ⟨300, 300, 0⟩ 308 _
      (by decide) rfl
  unfold convert_image_to_base64
  rw [hloop]
  rfl

/-- C9.  On a successful endpoint response, `stream_response` returns
the text of the first content block, and returns `None` (no error) when the
response has no content block at all. -/
theorem client_extracts_first_block (response : Resp) :
    (response.content = [] → stream_response response = none) ∧
    (∀ b rest, response.content = b :: rest → stream_response response = some b.text) := by
  constructor
  · intro h
    unfold stream_response
    rw [h]
  · intro b rest h
    unfold stream_response
    rw [h]

theorem client_extracts_first_block_witness :
    stream_response ⟨[]⟩ = none ∧ stream_response ⟨[⟨"hi"⟩, ⟨"bye"⟩]⟩ = some "hi" :=
  ⟨(client_extracts_first_block ⟨[]⟩).1 rfl,
   (client_extracts_first_block ⟨[⟨"hi"⟩, ⟨"bye"⟩]⟩).2 ⟨"hi"⟩ [⟨"bye"⟩] rfl⟩

/-- C3.  For a history whose last message is a user message with text
`t`, and an image attachment whose encoding succeeds with data `s`, the
assembled last message content is the ordered two-block list
`[TextBlock(t), ImageBlock(source type "base64", media type = attachment
MIME type, data = s)]`, original text first. -/
theorem assembler_injects_image_blocks (M : PILModel) (hist : List Msg) (t : String)
    (f : File) (s : String) (warns : List String)
    (hlast : hist.getLast? = some ⟨"user", .str t⟩)
    (hmime : strStartsWith f.type "image/" = true)
    (henc : convert_image_to_base64 M f.image f.img_format 5 = (some s, warns)) :
    (prepare_messages M hist (some f)).1.getLast? =
      some ⟨"user", .blocks [.text (.str t), .image "base64" f.type s]⟩ := by
  have hne : hist ≠ [] := by rintro rfl; simp at hlast
  have hs := convert_some_ne_empty M f.image f.img_format 5 s warns henc
  have hH := prepH_image_some M hist f s warns hne hmime henc hs
  rw [lastDeref_eq hist ⟨"user", .str t⟩ hlast] at hH
  rw [injectLast_user hist ⟨"user", .str t⟩ _ warns hlast rfl] at hH
  unfold prepare_messages
  rw [hH]
  dsimp only
  rw [map_deref_write, List.getLast?_concat]

theorem assembler_injects_image_blocks_witness :
    (prepare_messages pilDemo [⟨"user", .str "describe"⟩]
       (some ⟨"image/png", ⟨300, 300, 0⟩, "PNG", .error ""⟩)).1.getLast? =
      some ⟨"user", .blocks [.text (.str "describe"),
             .image "base64" "image/png" "Bw=="]⟩ := by
  apply assembler_injects_image_blocks pilDemo _ "describe" _ "Bw==" []
  · rfl
  · decide
  · have hloop : convertLoop pilDemo "PNG" (5 * 1024 * 1024) 90 ⟨300, 300, 0⟩ =
        .ok ⟨⟨300, 300, 0⟩, "PNG", none, [7]⟩ :=
      convertLoop_from_fuel pilDemo "PNG" (5 * 1024 * 1024) 90 ⟨300, 300, 0⟩ 308 _
        (by decide) rfl
    unfold convert_image_to_base64
    rw [hloop]
    rfl

/-- C4.  For every history and every optional attachment, the assembled
output has exactly as many messages as the history, with the same role at
every position, and every message except possibly the last is unchanged
(so only the last entry's content can change shape). -/
theorem assembler_preserves_count_and_roles (M : PILModel) (hist : List Msg)
    (file : Option File) :
    (prepare_messages M hist file).1.map Msg.role = hist.map Msg.role ∧
    (prepare_messages M hist file).1.dropLast = hist.dropLast := by
  unfold prepare_messages
  rw [prepare_hist M hist file]
  dsimp only
  rcases prepareH_cases M hist file with h | ⟨lm, c, hh, hu, h⟩
  · rw [h, prepareEntries_map_deref_zero]
    exact ⟨rfl, rfl⟩
  · rw [h, map_deref_write]
    have hsplit : hist.dropLast ++ [lm] = hist := List.dropLast_append_getLast? lm hh
    constructor
    · calc (hist.dropLast ++ [(⟨lm.role, c⟩ : Msg)]).map Msg.role
          = hist.dropLast.map Msg.role ++ [lm.role] := by simp
        _ = (hist.dropLast ++ [lm]).map Msg.role := by simp
        _ = hist.map Msg.role := by rw [hsplit]
    · rw [List.dropLast_concat]

/-- C7.  The Assembler never mutates the stored history: the heap after
any `prepare_messages` call is the history it was given, and the returned
list is a derived copy, read against that unchanged history.  (Purity —
same inputs give structurally identical output — holds definitionally in
this embedding: `prepare_messages` is a function of `(history,
attachment)`.) -/
theorem assembler_does_not_mutate_history (M : PILModel) (hist : List Msg)
    (file : Option File) :
    (prepare_messagesH M hist file).1 = hist ∧
    (prepare_messages M hist file).1 =
      (prepare_messagesH M hist file).2.1.map (deref hist) := by
  refine ⟨prepare_hist M hist file, ?_⟩
  unfold prepare_messages
  rw [prepare_hist M hist file]

/-- C8.  With no attachment, the assembled output is the history
itself, message for message, and no warning or error is emitted. -/
theorem assembler_identity_without_attachment (M : PILModel) (hist : List Msg) :
    prepare_messages M hist none = (hist, []) := by
  unfold prepare_messages
  have h0 : prepare_messagesH M hist none = (hist, prepareEntries 0 hist, []) := rfl
  rw [h0]
  dsimp only
  rw [prepareEntries_map_deref_zero]

/-- C10.  With an empty history, the Assembler returns the empty list
even when an attachment is supplied: the guard `if uploaded_file and
prepared_messages:` fails on the empty prepared list, so the attachment is
silently dropped — no encoding is attempted and no warning or error is
emitted. -/
theorem assembler_empty_history_drops_attachment (M : PILModel) (f : File) :
    prepare_messages M [] (some f) = ([], []) := rfl

/-- C5, amended.  If the very first re-encoding fits the budget, the
normalizer returns that first encoding: the image is not resized (the
encoded image has the original dimensions), and the encoding used is
JPEG at quality 90 for JPEG/JPG sources, lossless PNG for PNG sources,
and — for every other source format — JPEG at quality 90 of the
RGB-converted image, i.e. a lossy re-encoding that does *not* preserve the
source format. -/
theorem fastpath_first_fit (M : PILModel) (image : Image) (img_format : String)
    (max_size_bytes : Nat)
    (hfit : (M.save (convertedImage M img_format image) (saveFormat img_format)
      (saveQuality img_format 90)).length * 4 ≤ max_size_bytes * 3) :
    convertLoop M img_format max_size_bytes 90 image =
      .ok ⟨convertedImage M img_format image, saveFormat img_format,
           saveQuality img_format 90,
           M.save (convertedImage M img_format image) (saveFormat img_format)
             (saveQuality img_format 90)⟩ ∧
    (convertedImage M img_format image).width = image.width ∧
    (convertedImage M img_format image).height = image.height ∧
    ((img_format = "JPEG" ∨ img_format = "JPG") →
       convertedImage M img_format image = image ∧ saveFormat img_format = "JPEG" ∧
       saveQuality img_format 90 = some 90) ∧
    (img_format = "PNG" →
       convertedImage M img_format image = image ∧ saveFormat img_format = "PNG" ∧
       saveQuality img_format 90 = none) ∧
    (¬ (img_format = "JPEG" ∨ img_format = "JPG") → img_format ≠ "PNG" →
       convertedImage M img_format image = M.convertRGB image ∧
       saveFormat img_format = "JPEG" ∧ saveQuality img_format 90 = some 90) := by
  refine ⟨convertLoop_fit M img_format max_size_bytes 90 image hfit,
          convertedImage_width M img_format image,
          convertedImage_height M img_format image, ?_, ?_, ?_⟩
  · rintro (rfl | rfl) <;> exact ⟨rfl, rfl, rfl⟩
  · rintro rfl
    exact ⟨rfl, rfl, rfl⟩
  · intro h1 h2
    unfold convertedImage saveFormat saveQuality
    rw [if_neg h1, if_neg h2, if_neg h2, if_neg h2]
    exact ⟨rfl, rfl, rfl⟩

theorem fastpath_first_fit_witness :
    convertLoop pilDemo "PNG" (5 * 1024 * 1024) 90 ⟨300, 300, 0⟩ =
      .ok ⟨⟨300, 300, 0⟩, "PNG", none, [7]⟩ :=
  (fastpath_first_fit pilDemo ⟨300, 300, 0⟩ "PNG" (5 * 1024 * 1024) (by decide)).1

/-- C5, counterexample.  A 300×300 image whose source format is
`"WEBP"` fits the budget on the first iteration, yet the normalizer
encodes it as `JPEG` with `quality=90` — a lossy re-encoding in a format
different from the source's — contradicting the claim that non-JPEG,
non-PNG sources are "re-encoded losslessly" with their format
preserved. -/
theorem fastpath_format_not_preserved :
    convertLoop pilDemo "WEBP" (5 * 1024 * 1024) 90 ⟨300, 300, 0⟩ =
      .ok ⟨⟨300, 300, 0⟩, "JPEG", some 90, [7]⟩ ∧
    saveFormat "WEBP" = "JPEG" ∧ "JPEG" ≠ "WEBP" ∧
    saveQuality "WEBP" 90 = some 90 := by
  refine ⟨convertLoop_from_fuel pilDemo "WEBP" (5 * 1024 * 1024) 90 ⟨300, 300, 0⟩ 308 _
      (by decide) rfl, rfl, by decide, rfl⟩

/-- A second concrete PIL model whose encoder always writes 3932161 bytes:
`3932161 * 4 > 3 * (5 * 1024 * 1024)`, so nothing it produces ever fits
the default 5 MiB budget. -/
def pilBig : PILModel :=
  ⟨fun i w h => ⟨w, h, i.pixels⟩, fun i => i, fun _ _ _ => List.replicate 3932161 0,
   fun _ _ _ => rfl, fun _ _ _ => rfl, fun _ => rfl, fun _ => rfl,
   fun _ _ _ => by
     intro h
     have h2 := congrArg List.length h
     rw [List.length_replicate] at h2
     exact absurd h2 (by norm_num)⟩

/-- C6.  The normalizer gives up exactly at a state whose encoding is
still over budget, where quality reduction is exhausted (`quality ≤ 20`)
or inapplicable (non-JPEG source), and where the 0.9-shrunk dimensions
would drop below 200 px; the failure is the returned value `None` together
with a user-visible warning, not a crash; and on such a failure the
Assembler leaves the turn's messages unchanged (text-only content), so the
turn is still sent. -/
theorem cannot_compress_characterization (M : PILModel) :
    (∀ img_format max_size_bytes quality image fs,
       convertLoop M img_format max_size_bytes quality image = .error fs →
         ¬ fs.size * 4 ≤ max_size_bytes * 3 ∧
         (¬ (img_format = "JPEG" ∨ img_format = "JPG") ∨ fs.quality ≤ 20) ∧
         (fs.image.width * 9 / 10 < 200 ∨ fs.image.height * 9 / 10 < 200)) ∧
    (∀ image img_format max_size_mb,
       (convert_image_to_base64 M image img_format max_size_mb).1 = none →
         convert_image_to_base64 M image img_format max_size_mb =
           (none, [cannotCompressWarning])) ∧
    (∀ hist f, hist ≠ [] → strStartsWith f.type "image/" = true →
       (convert_image_to_base64 M f.image f.img_format 5).1 = none →
         prepare_messages M hist (some f) = (hist, [cannotCompressWarning])) := by
  refine ⟨?_, ?_, ?_⟩
  · intro img_format max_size_bytes quality image fs h
    obtain ⟨-, h1, h2, h3⟩ :=
      convertLoop_err M img_format max_size_bytes quality image fs h
    exact ⟨h1, h2, h3⟩
  · intro image img_format max_size_mb h
    exact (convert_none M image img_format max_size_mb h).2
  · intro hist f hne hmime h
    have hc := (convert_none M f.image f.img_format 5 h).2
    have hH := prepH_image_none M hist f [cannotCompressWarning] hne hmime hc
    unfold prepare_messages
    rw [hH]
    dsimp only
    rw [prepareEntries_map_deref_zero]

theorem cannot_compress_characterization_witness :
    ((¬ (1 : Nat) * 4 ≤ 0 * 3) ∧
     (¬ ("PNG" = "JPEG" ∨ "PNG" = "JPG") ∨ (90 : Nat) ≤ 20) ∧
     ((100 : Nat) * 9 / 10 < 200 ∨ (100 : Nat) * 9 / 10 < 200)) ∧
    convert_image_to_base64 pilDemo ⟨100, 100, 0⟩ "PNG" 0 =
      (none, [cannotCompressWarning]) ∧
    prepare_messages pilBig [⟨"user", .str "hi"⟩]
        (some ⟨"image/png", ⟨100, 100, 0⟩, "PNG", .error ""⟩) =
      ([⟨"user", .str "hi"⟩], [cannotCompressWarning]) := by
  have herr : convertLoop pilDemo "PNG" 0 90 ⟨100, 100, 0⟩ =
      .error ⟨90, ⟨100, 100, 0⟩, 1⟩ :=
    convertLoop_from_fuel pilDemo "PNG" 0 90 ⟨100, 100, 0⟩ 108 _ (by decide) rfl
  have hnone0 : (convert_image_to_base64 pilDemo ⟨100, 100, 0⟩ "PNG" 0).1 = none := by
    rw [convert_of_err pilDemo ⟨100, 100, 0⟩ "PNG" 0 _ herr]
  have hsave : ∀ i fm q, pilBig.save i fm q = List.replicate 3932161 0 :=
    fun _ _ _ => rfl
  have hbigfit : ¬ (pilBig.save (convertedImage pilBig "PNG" ⟨100, 100, 0⟩)
      (saveFormat "PNG") (saveQuality "PNG" 90)).length * 4 ≤ 5 * 1024 * 1024 * 3 := by
    rw [hsave, List.length_replicate]
    norm_num
  have hbigerr := convertLoop_stuck pilBig "PNG" (5 * 1024 * 1024) 90 ⟨100, 100, 0⟩
    hbigfit (by decide) (by decide)
  have hnone5 : (convert_image_to_base64 pilBig ⟨100, 100, 0⟩ "PNG" 5).1 = none := by
    rw [convert_of_err pilBig ⟨100, 100, 0⟩ "PNG" 5 _ hbigerr]
  exact ⟨(cannot_compress_characterization pilDemo).1 "PNG" 0 90 ⟨100, 100, 0⟩
           ⟨90, ⟨100, 100, 0⟩, 1⟩ herr,
         (cannot_compress_characterization pilDemo).2.1 ⟨100, 100, 0⟩ "PNG" 0 hnone0,
         (cannot_compress_characterization pilBig).2.2 [⟨"user", .str "hi"⟩]
           ⟨"image/png", ⟨100, 100, 0⟩, "PNG", .error ""⟩ (by simp) (by decide) hnone5⟩
